import Mathlib

/-!
Verification of `FastSurferCNN/data_loader/data_utils.py` (label remapping and
morphological post-processing for brain MRI segmentations).

Shallow embedding conventions:
* a label volume (`numpy` 3D integer array) is a `Vol`: its shape `(h, w, d)`
  plus a flat data list in raster order, element `(x, y, z)` at index
  `(x * w + y) * d + z`;
* in-place mutating numpy code is modelled by state passing: a transform that
  can raise returns the pair of its result/buffer state and an optional
  exception (`Vol × Option Err`), the buffer being the state of the caller's
  array at the moment of return or raise;
* `scipy.ndimage.gaussian_filter` is an external floating-point routine; every
  statement proved here holds for an arbitrary blur function, so it enters as
  an explicit parameter `blur` mapping an indicator volume (given as shape plus
  flat rational data) to a same-shape volume of rationals;
* Python exceptions (`AssertionError`, `KeyError`, numpy `ValueError` /
  `IndexError`) become constructors of `Err`.
-/

set_option maxHeartbeats 1000000
set_option maxRecDepth 100000

namespace DataUtils

/-- Python/numpy exceptions raised by the embedded functions. -/
inductive Err where
  /-- `AssertionError` from the superset check of `map_aparc_aseg2label`
  (segmentation contains classes not listed in the labels). -/
  | unmappedLabel
  /-- `AssertionError` from `assert not np.any(251 <= aseg)`. -/
  | assertCC
  /-- `AssertionError` from `assert np.any(aseg == 3) and np.any(aseg == 42)`. -/
  | assertCortical
  /-- `AssertionError` from `assert lut is not None`. -/
  | assertLutNone
  /-- numpy broadcast failure when two volumes of different shape are combined. -/
  | shapeMismatch
  /-- Python `KeyError` (failed dict lookup). -/
  | pyKeyError
  /-- Python/numpy `ValueError` (e.g. `np.argmax` on an empty axis, `np.max`
  of an empty list, unpacking a dict of the wrong size). -/
  | pyValueError
  /-- numpy `IndexError` (fancy indexing out of bounds, or indexing an empty
  `np.where` result). -/
  | pyIndexError
  /-- Python `TypeError` (e.g. `len()` of an `int`). -/
  | pyTypeError
  deriving DecidableEq, Repr

/-- A 3D integer label volume: shape `(h, w, d)` and flat data in raster
order, voxel `(x, y, z)` at flat index `(x * w + y) * d + z`. -/
structure Vol where
  h : Nat
  w : Nat
  d : Nat
  data : List Int
  deriving DecidableEq, Repr

/-- Flat raster index of voxel `(x, y, z)` in a volume of width `w`, depth `d`. -/
def idx3 (w d x y z : Nat) : Nat := (x * w + y) * d + z

/-- One in-place masked assignment `a[a == src] = tgt`, per element. -/
def subst (src tgt x : Int) : Int := if x = src then tgt else x

/-- `subst` lifted to a whole volume (`a[a == src] = tgt`). -/
def substVol (src tgt : Int) (v : Vol) : Vol :=
  ⟨v.h, v.w, v.d, v.data.map (subst src tgt)⟩

/-- Per-element composition of the nine masked assignments of
`clean_cortex_labels` (data_utils.py lines 646-655), in source order:
80→77, 85→0, 62→41, 30→2, 72→24, 29→0, 61→0, 3→0, 42→0. -/
def clean_elem (x : Int) : Int :=
  subst 42 0 (subst 3 0 (subst 61 0 (subst 29 0 (subst 72 24
    (subst 30 2 (subst 62 41 (subst 85 0 (subst 80 77 x))))))))

/-- `clean_cortex_labels` (data_utils.py lines 626-656): the fixed ID-to-ID
substitution table applied to every voxel of an aparc segmentation. -/
def clean_cortex_labels (v : Vol) : Vol :=
  ⟨v.h, v.w, v.d, v.data.map clean_elem⟩

theorem clean_elem_idem (x : Int) : clean_elem (clean_elem x) = clean_elem x := by
  rcases eq_or_ne x 80 with rfl | h80
  · decide
  rcases eq_or_ne x 85 with rfl | h85
  · decide
  rcases eq_or_ne x 62 with rfl | h62
  · decide
  rcases eq_or_ne x 30 with rfl | h30
  · decide
  rcases eq_or_ne x 72 with rfl | h72
  · decide
  rcases eq_or_ne x 29 with rfl | h29
  · decide
  rcases eq_or_ne x 61 with rfl | h61
  · decide
  rcases eq_or_ne x 3 with rfl | h3
  · decide
  rcases eq_or_ne x 42 with rfl | h42
  · decide
  simp [clean_elem, subst, h80, h85, h62, h30, h72, h29, h61, h3, h42]

theorem clean_cortex_labels_idem (v : Vol) :
    clean_cortex_labels (clean_cortex_labels v) = clean_cortex_labels v := by
  simp only [clean_cortex_labels, List.map_map]
  rw [show clean_elem ∘ clean_elem = clean_elem from funext clean_elem_idem]

/-- C5: `clean_cortex_labels` is idempotent — applying the fixed substitution
table twice to any volume yields the same result as applying it once; no
substitution target is itself rewritten by a repeated application. -/
theorem C5_clean_cortex_labels_idempotent (v : Vol) :
    clean_cortex_labels (clean_cortex_labels v) = clean_cortex_labels v :=
  clean_cortex_labels_idem v

/-! ### LUT reading (separator selection) -/

/-- Python `lut_file[-3:]`: the last three characters of the file name (the
whole name when it is shorter). -/
def lastThree (s : String) : String := s.drop (s.length - 3)

/-- Separator selection of `read_classes_from_lut` (data_utils.py lines
576-597): `separator = {"tsv": "\t", "csv": ",", "txt": " "}` indexed by
`lut_file[-3:]`; a missing key raises a Python `KeyError`. The actual parsing
is delegated to `pandas.read_csv` (external) and is not modelled. -/
def read_classes_from_lut_sep (lutFile : String) : Except Err Char :=
  let ext := lastThree lutFile
  if ext = ("tsv") then .ok '\t'
  else if ext = ("csv") then .ok ','
  else if ext = ("txt") then .ok ' '
  else .error .pyKeyError

/-! ### Sagittal prediction remapping -/

instance exceptDecEq {ε α : Type} [DecidableEq ε] [DecidableEq α] :
    DecidableEq (Except ε α) := fun x y =>
  match x, y with
  | .ok a, .ok b =>
    if h : a = b then .isTrue (by rw [h])
    else .isFalse (fun hc => h (by injection hc))
  | .ok _, .error _ => .isFalse (fun hc => Except.noConfusion hc)
  | .error _, .ok _ => .isFalse (fun hc => Except.noConfusion hc)
  | .error e, .error f =>
    if h : e = f then .isTrue (by rw [h])
    else .isFalse (fun hc => h (by injection hc))

/-- A per-voxel class-probability volume with a batch axis, as a function of
(batch, class, row, column); the class axis is the one the sagittal remap
gathers along (`prediction_sag[:, idx_list, :, :]`). -/
def Pred4 : Type := Nat → Nat → Nat → Nat → ℚ

/-- Hardcoded index table of `map_prediction_sagittal2full` for
`num_classes == 96` (data_utils.py lines 1113-1214). -/
def idxList96 : List Nat :=
  [0, 5, 6, 7, 8, 9, 10, 11, 12, 13, 1, 2, 3, 14, 15, 4, 16, 17, 18, 5, 6, 7,
   8, 9, 10, 11, 12, 13, 14, 15, 16, 17, 18, 19, 20, 21, 22, 23, 24, 25, 26,
   27, 28, 29, 30, 31, 32, 33, 34, 35, 36, 37, 38, 39, 40, 41, 42, 43, 44, 45,
   46, 47, 48, 49, 50, 20, 21, 22, 23, 24, 25, 26, 27, 28, 29, 30, 31, 32, 33,
   34, 35, 36, 37, 38, 39, 40, 41, 42, 43, 44, 45, 46, 47, 48, 49, 50]

/-- Hardcoded index table of `map_prediction_sagittal2full` for
`num_classes == 51` (data_utils.py lines 1216-1300). -/
def idxList51 : List Nat :=
  [0, 5, 6, 7, 8, 9, 10, 11, 12, 13, 1, 2, 3, 14, 15, 4, 16, 17, 18, 5, 6, 7,
   8, 9, 10, 11, 12, 13, 14, 15, 16, 17, 18, 19, 20, 21, 22, 23, 24, 25, 26,
   27, 28, 29, 30, 31, 32, 33, 34, 35, 36, 37, 38, 39, 40, 41, 42, 43, 44, 45,
   46, 47, 48, 49, 50, 20, 22, 27, 29, 30, 31, 33, 34, 38, 39, 40, 41, 42, 45]

/-- Hardcoded index table of `map_prediction_sagittal2full` for
`num_classes == 21` (data_utils.py lines 1302-1343): 36 full-space classes,
entry `j` holding the sagittal class index gathered into full class `j`. -/
def idxList21 : List Nat :=
  [0, 5, 6, 7, 8, 9, 10, 11, 12, 13, 14, 1, 2, 3, 15, 16, 4, 17, 18, 19, 5, 6,
   7, 8, 9, 10, 11, 12, 13, 14, 15, 16, 17, 18, 19, 20]

/-- `sagittal_coronal_remap_lookup` (data_utils.py lines 1020-1051): the
hardcoded left-to-right subcortical correspondence dict; a label outside the
table raises `KeyError`. -/
def sagittal_coronal_remap_lookup (x : Int) : Except Err Int :=
  if x = 2 then .ok 41 else if x = 3 then .ok 42 else if x = 4 then .ok 43
  else if x = 5 then .ok 44 else if x = 7 then .ok 46 else if x = 8 then .ok 47
  else if x = 10 then .ok 49 else if x = 11 then .ok 50
  else if x = 12 then .ok 51 else if x = 13 then .ok 52
  else if x = 17 then .ok 53 else if x = 18 then .ok 54
  else if x = 26 then .ok 58 else if x = 28 then .ok 60
  else if x = 31 then .ok 63 else .error .pyKeyError

/-- A loaded LUT: rows of (ID, LabelName), in file order. -/
def Lut : Type := List (Int × String)

/-- Insert into a Python dict modelled as an insertion-ordered association
list: an existing key is updated in place, a new key is appended. -/
def dictInsert (d : List (Int × Int)) (k v : Int) : List (Int × Int) :=
  if d.any (fun p => p.1 == k) then d.map (fun p => if p.1 = k then (k, v) else p)
  else d ++ [(k, v)]

/-- `pd.Series(...).to_dict()`: build a dict from key/value pairs in order,
later duplicate keys overwriting earlier ones. -/
def pairsToDict (l : List (Int × Int)) : List (Int × Int) :=
  l.foldl (fun d p => dictInsert d p.1 p.2) []

/-- `unify_lateralized_labels` (data_utils.py lines 853-884): select rows whose
name starts with each prefix of `combi`, strip the prefix, inner-join left and
right rows on the stripped name (pandas `merge`: left order, each left row
paired with every matching right row in right order), and return the dict
left-ID → right-ID. -/
def unify_lateralized_labels (lut : Lut) (combi1 combi2 : String) : List (Int × Int) :=
  let left := (lut.filter (fun r => r.2.startsWith combi1)).map
    (fun r => (r.1, r.2.drop combi1.length))
  let right := (lut.filter (fun r => r.2.startsWith combi2)).map
    (fun r => (r.1, r.2.drop combi2.length))
  let merged := left.flatMap (fun l =>
    (right.filter (fun r => r.2 == l.2)).map (fun r => (l.1, r.1)))
  pairsToDict merged

/-- `infer_mapping_from_lut` (data_utils.py lines 1054-1086). Its first
statement is `labels, labels_sag = unify_lateralized_labels(lut)`, but
`unify_lateralized_labels` returns the left→right **dict**: unpacking a dict
into two names raises `ValueError` unless it has exactly two entries, in which
case the two *keys* (ints) are bound and the subsequent `len(labels)` raises
`TypeError`. Either way the call raises before any mapping is derived, so the
embedding returns the corresponding error. -/
def infer_mapping_from_lut (numClassesFull : Nat) (lut : Lut) : Except Err (List Nat) :=
  let m := unify_lateralized_labels lut ("Left-") ("Right-")
  let _ := numClassesFull
  if m.length = 2 then .error .pyTypeError else .error .pyValueError

/-- Index-table selection of `map_prediction_sagittal2full` (data_utils.py
lines 1113-1347): hardcoded tables for 96/51/21 classes, otherwise
`assert lut is not None` followed by `infer_mapping_from_lut`. -/
def sagIdxTable (numClasses : Nat) (lut : Option Lut) : Except Err (List Nat) :=
  if numClasses = 96 then .ok idxList96
  else if numClasses = 51 then .ok idxList51
  else if numClasses = 21 then .ok idxList21
  else match lut with
    | none => .error .assertLutNone
    | some l => infer_mapping_from_lut numClasses l

/-- `map_prediction_sagittal2full` (data_utils.py lines 1089-1349): gather
along the class axis, `prediction_full[:, j, :, :] =
prediction_sag[:, idx_list[j], :, :]`. -/
def map_prediction_sagittal2full (predictionSag : Pred4) (numClasses : Nat)
    (lut : Option Lut) : Except Err Pred4 :=
  (sagIdxTable numClasses lut).map
    (fun t => fun b j x y => predictionSag b (t.getD j 0) x y)

/-- A one-hot sagittal prediction: probability 1 on sagittal class 5
everywhere, 0 on every other class. -/
def oneHotSag5 : Pred4 := fun _ c _ _ => if c = 5 then 1 else 0

/-- C2 counterexample: with `num_classes = 21`, remapping a one-hot volume at
sagittal class index 5 does NOT route it to full-space index 10 — the gathered
value at full class 10 is `prediction_sag` at class `idx_list[10] = 14`, which
is 0, not 1. -/
theorem C2_counterexample_class5_not_to_10 :
    (map_prediction_sagittal2full oneHotSag5 21 none).map (fun f => f 0 10 0 0)
      = Except.ok (0 : ℚ) ∧
    idxList21.getD 10 99 = 14 ∧
    (Except.ok (0 : ℚ) : Except Err ℚ) ≠ Except.ok 1 := by
  refine ⟨rfl, rfl, by decide⟩

/-- C2 (amended): for `num_classes = 21` the hardcoded 36-entry table is
gathered along the class axis; a one-hot volume at sagittal class 5 routes to
full-space indices 1 and 20 (the positions whose table entry is 5), not to
index 10 (whose entry is 14); the listed pairs full 0 ← sagittal 0,
full 1 ← sagittal 5, full 35 ← sagittal 20 hold. -/
theorem C2_sagittal21_routing :
    idxList21.length = 36 ∧
    idxList21.getD 0 99 = 0 ∧ idxList21.getD 1 99 = 5 ∧
    idxList21.getD 10 99 = 14 ∧ idxList21.getD 35 99 = 20 ∧
    (List.range 36).filter (fun j => idxList21.getD j 99 == 5) = [1, 20] ∧
    (List.range 36).filter (fun j =>
        decide ((map_prediction_sagittal2full oneHotSag5 21 none).map
          (fun f => f 0 j 0 0) = Except.ok (1 : ℚ))) = [1, 20] := by
  decide

/-- C3: for every class count other than 96/51/21, `map_prediction_sagittal2full`
never derives an index table from the LUT: `infer_mapping_from_lut` begins with
`labels, labels_sag = unify_lateralized_labels(lut)`, which unpacks the
left→right dict and raises `ValueError` (dict size ≠ 2) or `TypeError`
(`len(int)` after key-unpacking), so the call always fails before the
(a) exact / (b) minus-1000 / (c) correspondence-table search described by the
spec can run. -/
theorem C3_infer_mapping_always_raises (pred : Pred4) (n : Nat) (lut : Lut)
    (h96 : n ≠ 96) (h51 : n ≠ 51) (h21 : n ≠ 21) :
    map_prediction_sagittal2full pred n (some lut) = .error .pyTypeError ∨
    map_prediction_sagittal2full pred n (some lut) = .error .pyValueError := by
  by_cases hm : (unify_lateralized_labels lut ("Left-") ("Right-")).length = 2
  · left
    simp [map_prediction_sagittal2full, sagIdxTable, infer_mapping_from_lut,
      h96, h51, h21, hm, Except.map]
  · right
    simp [map_prediction_sagittal2full, sagIdxTable, infer_mapping_from_lut,
      h96, h51, h21, hm, Except.map]

/-- A concrete three-row LUT for exercising `infer_mapping_from_lut`. -/
def lutEx : Lut :=
  [(0, ("Unknown")), (2, ("Left-Cerebral-White-Matter")),
   (41, ("Right-Cerebral-White-Matter"))]

/-- An all-zero prediction volume. -/
def predZero : Pred4 := fun _ _ _ _ => 0

theorem C3_infer_mapping_always_raises_witness :
    map_prediction_sagittal2full predZero 4 (some lutEx) = .error .pyTypeError ∨
    map_prediction_sagittal2full predZero 4 (some lutEx) = .error .pyValueError :=
  C3_infer_mapping_always_raises predZero 4 lutEx (by decide) (by decide) (by decide)

/-- C9 counterexample: the separator is NOT a space for every non-tsv/csv
extension — a `.mat` file name misses the `{"tsv","csv","txt"}` dict and
raises `KeyError` (there is no dedicated FormatError in the code). -/
theorem C9_counterexample_unknown_extension :
    read_classes_from_lut_sep ("labels.mat") = .error .pyKeyError ∧
    (Except.error Err.pyKeyError : Except Err Char) ≠ Except.ok ' ' := by
  refine ⟨rfl, by decide⟩

/-- C9 (amended): `read_classes_from_lut` selects the separator from the last
three characters of the file name — tab for `tsv`, comma for `csv`, space for
`txt` only — and any other extension raises a plain `KeyError` from the
separator-dict lookup, not a dedicated FormatError. -/
theorem C9_separator_selection (f : String) :
    (lastThree f = ("tsv") → read_classes_from_lut_sep f = .ok '\t') ∧
    (lastThree f = ("csv") → read_classes_from_lut_sep f = .ok ',') ∧
    (lastThree f = ("txt") → read_classes_from_lut_sep f = .ok ' ') ∧
    (lastThree f ≠ ("tsv") → lastThree f ≠ ("csv") → lastThree f ≠ ("txt") →
      read_classes_from_lut_sep f = .error .pyKeyError) := by
  refine ⟨fun h => ?_, fun h => ?_, fun h => ?_, fun h1 h2 h3 => ?_⟩ <;>
    simp [read_classes_from_lut_sep, *]

theorem C9_separator_selection_witness :
    read_classes_from_lut_sep ("a.tsv") = .ok '\t' ∧
    read_classes_from_lut_sep ("b.csv") = .ok ',' ∧
    read_classes_from_lut_sep ("c.txt") = .ok ' ' ∧
    read_classes_from_lut_sep ("d.mgz") = .error .pyKeyError :=
  ⟨(C9_separator_selection ("a.tsv")).1 rfl,
   (C9_separator_selection ("b.csv")).2.1 rfl,
   (C9_separator_selection ("c.txt")).2.2.1 rfl,
   (C9_separator_selection ("d.mgz")).2.2.2 (by decide) (by decide) (by decide)⟩

/-! ### Bounding box (`bbox_3d`) -/

/-- Truthiness of voxel `(x, y, z)` of a volume (numpy: value nonzero). -/
def nonzeroAt (v : Vol) (x y z : Nat) : Bool :=
  v.data.getD (idx3 v.w v.d x y z) 0 != 0

/-- `np.any(img, axis=(1, 2))` at row `x`. -/
def anyRow (v : Vol) (x : Nat) : Bool :=
  (List.range v.w).any fun y => (List.range v.d).any fun z => nonzeroAt v x y z

/-- `np.any(img, axis=(0, 2))` at column `y`. -/
def anyCol (v : Vol) (y : Nat) : Bool :=
  (List.range v.h).any fun x => (List.range v.d).any fun z => nonzeroAt v x y z

/-- `np.any(img, axis=(0, 1))` at depth `z`. -/
def anyDep (v : Vol) (z : Nat) : Bool :=
  (List.range v.h).any fun x => (List.range v.w).any fun y => nonzeroAt v x y z

/-- `np.where(r)[0]`: the (increasing) list of row indices with any nonzero voxel. -/
def whereRows (v : Vol) : List Nat := (List.range v.h).filter (anyRow v)

/-- `np.where(c)[0]` for columns. -/
def whereCols (v : Vol) : List Nat := (List.range v.w).filter (anyCol v)

/-- `np.where(z)[0]` for depths. -/
def whereDeps (v : Vol) : List Nat := (List.range v.d).filter (anyDep v)

/-- `bbox_3d` (data_utils.py lines 1353-1389): `rmin, rmax = np.where(r)[0][[0, -1]]`
and likewise for columns and depths; indexing the empty `np.where` result of an
all-zero volume raises `IndexError`. -/
def bbox_3d (v : Vol) : Except Err (Nat × Nat × Nat × Nat × Nat × Nat) :=
  let r := whereRows v
  let c := whereCols v
  let z := whereDeps v
  if r.isEmpty || c.isEmpty || z.isEmpty then .error .pyIndexError
  else .ok (r.headD 0, r.getLastD 0, c.headD 0, c.getLastD 0, z.headD 0, z.getLastD 0)

theorem mem_whereRows {v : Vol} {x : Nat} :
    x ∈ whereRows v ↔ x < v.h ∧ ∃ y < v.w, ∃ z < v.d,
      v.data.getD (idx3 v.w v.d x y z) 0 ≠ 0 := by
  simp [whereRows, anyRow, nonzeroAt, List.mem_filter, List.any_eq_true]

theorem mem_whereCols {v : Vol} {y : Nat} :
    y ∈ whereCols v ↔ y < v.w ∧ ∃ x < v.h, ∃ z < v.d,
      v.data.getD (idx3 v.w v.d x y z) 0 ≠ 0 := by
  simp [whereCols, anyCol, nonzeroAt, List.mem_filter, List.any_eq_true]

theorem mem_whereDeps {v : Vol} {z : Nat} :
    z ∈ whereDeps v ↔ z < v.d ∧ ∃ x < v.h, ∃ y < v.w,
      v.data.getD (idx3 v.w v.d x y z) 0 ≠ 0 := by
  simp [whereDeps, anyDep, nonzeroAt, List.mem_filter, List.any_eq_true]

theorem sorted_filter_range (n : Nat) (p : Nat → Bool) :
    ((List.range n).filter p).Sorted (· < ·) :=
  (List.pairwise_lt_range n).filter p

theorem sorted_headD_le {l : List Nat} (hs : l.Sorted (· < ·)) {x : Nat}
    (hx : x ∈ l) : l.headD 0 ≤ x := by
  cases l with
  | nil => cases hx
  | cons a t =>
    rcases List.mem_cons.mp hx with rfl | hxt
    · exact Nat.le_refl x
    · exact Nat.le_of_lt ((List.sorted_cons.mp hs).1 x hxt)

theorem sorted_le_getLastD {l : List Nat} (hs : l.Sorted (· < ·)) :
    ∀ x ∈ l, x ≤ l.getLastD 0 := by
  induction l with
  | nil => intro x hx; cases hx
  | cons a t ih =>
    intro x hx
    rcases List.sorted_cons.mp hs with ⟨ha, hts⟩
    cases t with
    | nil =>
      rcases List.mem_cons.mp hx with rfl | hxt
      · exact Nat.le_refl x
      · cases hxt
    | cons b u =>
      have hlast : (a :: b :: u).getLastD 0 = (b :: u).getLastD 0 := rfl
      rw [hlast]
      rcases List.mem_cons.mp hx with rfl | hxt
      · exact Nat.le_of_lt (Nat.lt_of_lt_of_le (ha b (List.mem_cons_self b u))
          (ih hts b (List.mem_cons_self b u)))
      · exact ih hts x hxt

theorem headD_mem {l : List Nat} (h : l ≠ []) : l.headD 0 ∈ l := by
  cases l with
  | nil => exact absurd rfl h
  | cons a t => exact List.mem_cons_self a t

theorem getLastD_mem {l : List Nat} (h : l ≠ []) : l.getLastD 0 ∈ l := by
  induction l with
  | nil => exact absurd rfl h
  | cons a t ih =>
    cases t with
    | nil => exact List.mem_cons_self a []
    | cons b u =>
      exact List.mem_cons_of_mem a (ih (List.cons_ne_nil b u))

/-- C7 counterexample: on an entirely zero volume `bbox_3d` raises `IndexError`
(`np.where` returns an empty index array and `[[0, -1]]` indexes it), instead
of returning an empty/sentinel range as the claim states. -/
theorem C7_counterexample_all_zero_raises :
    bbox_3d ⟨1, 1, 1, [0]⟩ = .error .pyIndexError := by decide

/-- C7 (amended): for every volume with at least one nonzero voxel, `bbox_3d`
returns the minimum and maximum index along each of the three axes over all
nonzero voxels; for an entirely zero volume it raises `IndexError` (it does not
return a sentinel range). -/
theorem C7_bbox_3d_minmax (v : Vol) :
    ((∃ x < v.h, ∃ y < v.w, ∃ z < v.d,
        v.data.getD (idx3 v.w v.d x y z) 0 ≠ 0) →
      ∃ r1 r2 c1 c2 z1 z2, bbox_3d v = .ok (r1, r2, c1, c2, z1, z2) ∧
        (∀ x, x < v.h → ∀ y, y < v.w → ∀ z, z < v.d →
          v.data.getD (idx3 v.w v.d x y z) 0 ≠ 0 →
          r1 ≤ x ∧ x ≤ r2 ∧ c1 ≤ y ∧ y ≤ c2 ∧ z1 ≤ z ∧ z ≤ z2) ∧
        (∃ y < v.w, ∃ z < v.d, v.data.getD (idx3 v.w v.d r1 y z) 0 ≠ 0) ∧
        (∃ y < v.w, ∃ z < v.d, v.data.getD (idx3 v.w v.d r2 y z) 0 ≠ 0) ∧
        (∃ x < v.h, ∃ z < v.d, v.data.getD (idx3 v.w v.d x c1 z) 0 ≠ 0) ∧
        (∃ x < v.h, ∃ z < v.d, v.data.getD (idx3 v.w v.d x c2 z) 0 ≠ 0) ∧
        (∃ x < v.h, ∃ y < v.w, v.data.getD (idx3 v.w v.d x y z1) 0 ≠ 0) ∧
        (∃ x < v.h, ∃ y < v.w, v.data.getD (idx3 v.w v.d x y z2) 0 ≠ 0)) ∧
    ((∀ x, x < v.h → ∀ y, y < v.w → ∀ z, z < v.d →
        v.data.getD (idx3 v.w v.d x y z) 0 = 0) →
      bbox_3d v = .error .pyIndexError) := by
  constructor
  · rintro ⟨x0, hx0, y0, hy0, z0, hz0, hv0⟩
    have hxr : x0 ∈ whereRows v := mem_whereRows.mpr ⟨hx0, y0, hy0, z0, hz0, hv0⟩
    have hyc : y0 ∈ whereCols v := mem_whereCols.mpr ⟨hy0, x0, hx0, z0, hz0, hv0⟩
    have hzd : z0 ∈ whereDeps v := mem_whereDeps.mpr ⟨hz0, x0, hx0, y0, hy0, hv0⟩
    have hrne : whereRows v ≠ [] := List.ne_nil_of_mem hxr
    have hcne : whereCols v ≠ [] := List.ne_nil_of_mem hyc
    have hzne : whereDeps v ≠ [] := List.ne_nil_of_mem hzd
    have hsr := sorted_filter_range v.h (anyRow v)
    have hsc := sorted_filter_range v.w (anyCol v)
    have hsz := sorted_filter_range v.d (anyDep v)
    refine ⟨(whereRows v).headD 0, (whereRows v).getLastD 0,
      (whereCols v).headD 0, (whereCols v).getLastD 0,
      (whereDeps v).headD 0, (whereDeps v).getLastD 0, ?_, ?_, ?_, ?_, ?_, ?_, ?_, ?_⟩
    · have h1 : (whereRows v).isEmpty = false := by
        cases hwr : whereRows v with
        | nil => exact absurd hwr hrne
        | cons a t => rfl
      have h2 : (whereCols v).isEmpty = false := by
        cases hwc : whereCols v with
        | nil => exact absurd hwc hcne
        | cons a t => rfl
      have h3 : (whereDeps v).isEmpty = false := by
        cases hwz : whereDeps v with
        | nil => exact absurd hwz hzne
        | cons a t => rfl
      simp [bbox_3d, h1, h2, h3]
    · intro x hx y hy z hz hne
      have hxr2 : x ∈ whereRows v := mem_whereRows.mpr ⟨hx, y, hy, z, hz, hne⟩
      have hyc2 : y ∈ whereCols v := mem_whereCols.mpr ⟨hy, x, hx, z, hz, hne⟩
      have hzd2 : z ∈ whereDeps v := mem_whereDeps.mpr ⟨hz, x, hx, y, hy, hne⟩
      exact ⟨sorted_headD_le hsr hxr2, sorted_le_getLastD hsr x hxr2,
        sorted_headD_le hsc hyc2, sorted_le_getLastD hsc y hyc2,
        sorted_headD_le hsz hzd2, sorted_le_getLastD hsz z hzd2⟩
    · exact (mem_whereRows.mp (headD_mem hrne)).2
    · exact (mem_whereRows.mp (getLastD_mem hrne)).2
    · exact (mem_whereCols.mp (headD_mem hcne)).2
    · exact (mem_whereCols.mp (getLastD_mem hcne)).2
    · exact (mem_whereDeps.mp (headD_mem hzne)).2
    · exact (mem_whereDeps.mp (getLastD_mem hzne)).2
  · intro hzero
    have hr : whereRows v = [] := by
      unfold whereRows
      rw [List.filter_eq_nil_iff]
      intro x hx
      simp only [List.mem_range] at hx
      simp only [anyRow, List.any_eq_true, List.mem_range, nonzeroAt,
        bne_iff_ne, ne_eq]
      push_neg
      intro y hy z hz
      exact hzero x hx y hy z hz
    simp [bbox_3d, hr]

theorem C7_bbox_3d_minmax_witness :
    (∃ x < 1, ∃ y < 1, ∃ z < 2,
        (Vol.mk 1 1 2 [0, 7]).data.getD (idx3 1 2 x y z) 0 ≠ 0) ∧
    ∃ r1 r2 c1 c2 z1 z2,
      bbox_3d ⟨1, 1, 2, [0, 7]⟩ = .ok (r1, r2, c1, c2, z1, z2) ∧
        (∀ x, x < 1 → ∀ y, y < 1 → ∀ z, z < 2 →
          (Vol.mk 1 1 2 [0, 7]).data.getD (idx3 1 2 x y z) 0 ≠ 0 →
          r1 ≤ x ∧ x ≤ r2 ∧ c1 ≤ y ∧ y ≤ c2 ∧ z1 ≤ z ∧ z ≤ z2) ∧
        (∃ y < 1, ∃ z < 2, (Vol.mk 1 1 2 [0, 7]).data.getD (idx3 1 2 r1 y z) 0 ≠ 0) ∧
        (∃ y < 1, ∃ z < 2, (Vol.mk 1 1 2 [0, 7]).data.getD (idx3 1 2 r2 y z) 0 ≠ 0) ∧
        (∃ x < 1, ∃ z < 2, (Vol.mk 1 1 2 [0, 7]).data.getD (idx3 1 2 x c1 z) 0 ≠ 0) ∧
        (∃ x < 1, ∃ z < 2, (Vol.mk 1 1 2 [0, 7]).data.getD (idx3 1 2 x c2 z) 0 ≠ 0) ∧
        (∃ x < 1, ∃ y < 1, (Vol.mk 1 1 2 [0, 7]).data.getD (idx3 1 2 x y z1) 0 ≠ 0) ∧
        (∃ x < 1, ∃ y < 1, (Vol.mk 1 1 2 [0, 7]).data.getD (idx3 1 2 x y z2) 0 ≠ 0) :=
  ⟨⟨0, by decide, 0, by decide, 1, by decide, by decide⟩,
   (C7_bbox_3d_minmax ⟨1, 1, 2, [0, 7]⟩).1 ⟨0, by decide, 0, by decide, 1, by decide, by decide⟩⟩

/-! ### Connected components (`get_largest_cc`) -/

/-- A boolean 3D mask, flat data in the same raster order as `Vol`. -/
structure Mask where
  h : Nat
  w : Nat
  d : Nat
  data : List Bool
  deriving DecidableEq, Repr

/-- The three unit steps along one axis. -/
def threeR : List Int := [-1, 0, 1]

/-- All 27 offsets of the 3×3×3 cube around a voxel. -/
def offsets27 : List (Int × Int × Int) :=
  threeR.flatMap fun dx => threeR.flatMap fun dy => threeR.map fun dz => (dx, dy, dz)

/-- The 26-connectivity neighbourhood (`skimage` `connectivity=3` in 3D):
all cube offsets except the origin. -/
def offs26 : List (Int × Int × Int) :=
  offsets27.filter fun o => !(o.1 == 0 && o.2.1 == 0 && o.2.2 == 0)

/-- In-bounds flat indices of the 26 neighbours of flat index `i` in an
`h × w × d` grid. -/
def nbrs26 (h w d i : Nat) : List Nat :=
  let z : Int := (i % d : Nat)
  let y : Int := (i / d % w : Nat)
  let x : Int := (i / (d * w) : Nat)
  offs26.filterMap fun o =>
    let nx := x + o.1
    let ny := y + o.2.1
    let nz := z + o.2.2
    if 0 ≤ nx ∧ nx < (h : Int) ∧ 0 ≤ ny ∧ ny < (w : Int) ∧ 0 ≤ nz ∧ nz < (d : Int)
    then some (idx3 w d nx.toNat ny.toNat nz.toNat) else none

/-- Breadth-first flood fill of one component: pops the queue, labels every
still-unlabelled foreground 26-neighbour with `cur` and enqueues it. Fuel
bounds the pops (each voxel is enqueued at most once). -/
def ccBfs (h w d : Nat) (seg : List Bool) (cur : Nat) :
    Nat → List Nat → List Nat → List Nat
  | 0, labels, _ => labels
  | _ + 1, labels, [] => labels
  | fuel + 1, labels, i :: queue =>
    let ns := (nbrs26 h w d i).filter fun j =>
      seg.getD j false && labels.getD j 0 == 0
    let labels2 := ns.foldl (fun acc j => acc.set j cur) labels
    ccBfs h w d seg cur fuel labels2 (queue ++ ns)

/-- Raster scan assigning component numbers 1, 2, … in order of each
component's first voxel, flood-filling from it — the labelling discipline of
`skimage.measure.label` (background keeps 0). -/
def ccScan (h w d : Nat) (seg : List Bool) :
    Nat → Nat → Nat → List Nat → List Nat
  | 0, _, _, labels => labels
  | n + 1, i, cur, labels =>
    if seg.getD i false && labels.getD i 0 == 0 then
      let labels2 := ccBfs h w d seg cur (h * w * d + 1) (labels.set i cur) [i]
      ccScan h w d seg n (i + 1) (cur + 1) labels2
    else ccScan h w d seg n (i + 1) cur labels

/-- `label(segmentation, connectivity=3, background=0)`: per-voxel component
numbers, 0 on background. -/
def ccLabel (m : Mask) : List Nat :=
  ccScan m.h m.w m.d m.data (m.h * m.w * m.d) 0 1
    (List.replicate (m.h * m.w * m.d) 0)

/-- `np.argmax` helper: index of the first maximal element, given the running
best index/value. -/
def argmaxAux {α : Type} [LinearOrder α] : List α → Nat → Nat → α → Nat
  | [], _, bi, _ => bi
  | v :: rest, i, bi, bv =>
    if bv < v then argmaxAux rest (i + 1) i v else argmaxAux rest (i + 1) bi bv

/-- `np.argmax`: index of the first occurrence of the maximum (0 on the empty
list, where numpy raises — callers guard that case). -/
def argmaxIdx {α : Type} [LinearOrder α] : List α → Nat
  | [] => 0
  | v :: rest => argmaxAux rest 1 0 v

/-- `np.bincount`: occurrence counts of 0, 1, …, max of the list. -/
def bincount (l : List Nat) : List Nat :=
  (List.range (l.foldl max 0 + 1)).map fun k => l.count k

/-- `get_largest_cc` (data_utils.py lines 1392-1416): label components, take
`np.bincount`, `background = np.argmax(bincount)` (the *most frequent* label,
whatever it is), overwrite its count with −1, and return the mask of the label
with the next `np.argmax`. On a 0-voxel volume `np.argmax` of the empty
bincount raises `ValueError`. -/
def get_largest_cc (m : Mask) : Except Err (List Bool) :=
  let labels := ccLabel m
  if labels.isEmpty then .error .pyValueError
  else
    let bc : List Int := (bincount labels).map fun n => (n : Int)
    let background := argmaxIdx bc
    let bc2 := bc.set background (-1)
    let big := argmaxIdx bc2
    .ok (labels.map fun l => l == big)

/-- A 5×5×5 mask with two separated foreground blobs: a 5×5×2 slab of 50
voxels at depths 0-1, and a 5×2×1 slab of 10 voxels at depth 4, columns 0-1. -/
def twoBlobMask : Mask :=
  ⟨5, 5, 5, (List.range 125).map fun i =>
    decide (i % 5 ≤ 1) || (decide (i % 5 = 4) && decide (i / 5 % 5 ≤ 1))⟩

/-- The 50-voxel blob of `twoBlobMask` alone. -/
def blob50Mask : List Bool := (List.range 125).map fun i => decide (i % 5 ≤ 1)

/-- The 10-voxel blob of `twoBlobMask` alone. -/
def blob10Mask : List Bool :=
  (List.range 125).map fun i => decide (i % 5 = 4) && decide (i / 5 % 5 ≤ 1)

/-- C6 counterexample: on an entirely empty (all-false) mask, `get_largest_cc`
returns an all-TRUE volume, not the all-false volume the claim states: every
label is 0, `background = argmax(bincount) = 0` gets count −1, and the second
`argmax` is again 0, so the result is `labels == 0`, i.e. everything. -/
theorem C6_counterexample_empty_mask :
    get_largest_cc ⟨1, 1, 2, [false, false]⟩ = .ok [true, true] ∧
    [true, true] ≠ [false, false] := by decide

/-- C6 (amended): `get_largest_cc` discards the *most frequent* label (which
is the background only when background dominates) and returns the mask of the
most frequent remaining label: on the 5×5×5 volume with separated foreground
blobs of 50 and 10 voxels (background 65 voxels, the most frequent), it
returns exactly the 50-voxel blob; on an entirely empty mask it returns an
all-true volume (the `labels == 0` fallback), not an all-false one. -/
theorem C6_get_largest_cc_blobs :
    blob50Mask.count true = 50 ∧
    blob10Mask.count true = 10 ∧
    twoBlobMask.data = List.zipWith or blob50Mask blob10Mask ∧
    get_largest_cc twoBlobMask = .ok blob50Mask ∧
    get_largest_cc ⟨1, 1, 2, [false, false]⟩ = .ok [true, true] := by decide

/-! ### Unknown-cortex filling (`fill_unknown_labels_per_hemi`) -/

/-- The type of the external `scipy.ndimage.gaussian_filter(..., sigma=5)`
routine: given the shape `(h, w, d)` and the flat data of an indicator volume,
it returns a same-shape flat volume of blurred values. It computes in floating
point, so it is kept as a parameter: every theorem below holds for an
arbitrary blur. -/
def Blur : Type := Nat → Nat → Nat → List ℚ → List ℚ

/-- `scipy.ndimage.generate_binary_structure(3, 2)`: the offsets of the 3×3×3
cube whose squared distance from the origin is at most 2 (face and edge
neighbours plus the origin — 19 elements). -/
def rank2Offsets : List (Int × Int × Int) :=
  offsets27.filter fun o => o.1 * o.1 + o.2.1 * o.2.1 + o.2.2 * o.2.2 ≤ 2

/-- `scipy.ndimage.morphology.binary_dilation(m, struct)` with the rank-2
structuring element; out-of-bounds neighbours contribute the border value
`False`. -/
def dilate18 (h w d : Nat) (m : List Bool) : List Bool :=
  (List.range (h * w * d)).map fun i =>
    let z : Int := (i % d : Nat)
    let y : Int := (i / d % w : Nat)
    let x : Int := (i / (d * w) : Nat)
    rank2Offsets.any fun o =>
      let nx := x + o.1
      let ny := y + o.2.1
      let nz := z + o.2.2
      decide (0 ≤ nx ∧ nx < (h : Int) ∧ 0 ≤ ny ∧ ny < (w : Int) ∧
        0 ≤ nz ∧ nz < (d : Int)) &&
        m.getD (idx3 w d nx.toNat ny.toNat nz.toNat) false

/-- `np.unique`: sorted list of the distinct values. -/
def sortedUnique (l : List Int) : List Int := (l.insertionSort (· ≤ ·)).dedup

/-- The candidate parcels of `fill_unknown_labels_per_hemi` (data_utils.py
lines 686-693): the distinct values of `gt` on the one-pass dilation boundary
of the unknown mask, restricted to the open interval
`(unknown_label, cortex_stop)`. -/
def fillCandidates (gt : Vol) (u c : Int) : List Int :=
  let unknown0 := gt.data.map fun x => x == u
  let dil := dilate18 gt.h gt.w gt.d unknown0
  let boundary := (List.range (gt.h * gt.w * gt.d)).filter fun i =>
    dil.getD i false != unknown0.getD i false
  (sortedUnique (boundary.map fun i => gt.data.getD i 0)).filter fun p =>
    decide (u < p) && decide (p < c)

/-- The parcel assigned at voxel `i` by `fill_unknown_labels_per_hemi`:
`list_parcels[np.argmax(blur_vals, axis=3)]` at that voxel (the stacked blur
channels are one per candidate parcel, in candidate order). -/
def fillClosest (blur : Blur) (gt : Vol) (u c : Int) (i : Nat) : Int :=
  let listParcels := fillCandidates gt u c
  let blurs := listParcels.map fun p =>
    blur gt.h gt.w gt.d (gt.data.map fun x => if x = p then (1000 : ℚ) else 0)
  listParcels.getD (argmaxIdx (blurs.map fun b => b.getD i 0)) 0

/-- `fill_unknown_labels_per_hemi` (data_utils.py lines 659-711): every voxel
equal to `unknown_label` receives the candidate parcel whose blurred indicator
volume (`gaussian_filter(1000 * (gt == parcel), sigma=5)`) is maximal at that
voxel (`np.argmax` over the stacked channel axis, first maximum on ties); with
no candidate parcels the stacked array has an empty last axis and `np.argmax`
raises `ValueError`, leaving `gt` unmodified (the in-place write is the last
statement). -/
def fill_unknown_labels_per_hemi (blur : Blur) (gt : Vol) (u c : Int) :
    Vol × Option Err :=
  if (fillCandidates gt u c).isEmpty then (gt, some .pyValueError)
  else
    (⟨gt.h, gt.w, gt.d,
      gt.data.enum.map fun q =>
        if q.2 = u then fillClosest blur gt u c q.1 else q.2⟩, none)

theorem argmaxAux_cases {α : Type} [LinearOrder α] :
    ∀ (l : List α) (i bi : Nat) (bv : α),
      argmaxAux l i bi bv = bi ∨
        ∃ j, j < l.length ∧ argmaxAux l i bi bv = i + j := by
  intro l
  induction l with
  | nil => intro i bi bv; left; rfl
  | cons v t ih =>
    intro i bi bv
    by_cases h : bv < v
    · have hstep : argmaxAux (v :: t) i bi bv = argmaxAux t (i + 1) i v := by
        simp [argmaxAux, h]
      rw [hstep]
      rcases ih (i + 1) i v with he | ⟨j, hj, he⟩
      · right; exact ⟨0, by simp, by omega⟩
      · right; exact ⟨j + 1, by simp; omega, by omega⟩
    · have hstep : argmaxAux (v :: t) i bi bv = argmaxAux t (i + 1) bi bv := by
        simp [argmaxAux, h]
      rw [hstep]
      rcases ih (i + 1) bi bv with he | ⟨j, hj, he⟩
      · left; exact he
      · right; exact ⟨j + 1, by simp; omega, by omega⟩

theorem argmaxIdx_lt_length {α : Type} [LinearOrder α] (l : List α)
    (h : l ≠ []) : argmaxIdx l < l.length := by
  cases l with
  | nil => exact absurd rfl h
  | cons v t =>
    have hidx : argmaxIdx (v :: t) = argmaxAux t 1 0 v := rfl
    rw [hidx]
    rcases argmaxAux_cases t 1 0 v with he | ⟨j, hj, he⟩
    · rw [he]; simp
    · rw [he]; simp; omega

theorem getD_map_lt {α β : Type} (f : α → β) (l : List α) (i : Nat)
    (h : i < l.length) (d : α) (e : β) : (l.map f).getD i e = f (l.getD i d) := by
  rw [List.getD_eq_getElem?_getD, List.getD_eq_getElem?_getD,
    List.getElem?_map, List.getElem?_eq_getElem h]
  rfl

theorem getD_enum_map {β : Type} (f : Nat × Int → β) (l : List Int) (i : Nat)
    (h : i < l.length) (e : β) :
    (l.enum.map f).getD i e = f (i, l.getD i 0) := by
  rw [List.getD_eq_getElem?_getD, List.getD_eq_getElem?_getD,
    List.getElem?_map, List.getElem?_enum, List.getElem?_eq_getElem h]
  rfl

theorem mem_fillCandidates_bounds {gt : Vol} {u c p : Int}
    (h : p ∈ fillCandidates gt u c) : u < p ∧ p < c := by
  have := List.of_mem_filter h
  simp only [Bool.and_eq_true, decide_eq_true_eq] at this
  exact this

theorem fillClosest_mem (blur : Blur) (gt : Vol) (u c : Int) (i : Nat)
    (hcne : fillCandidates gt u c ≠ []) :
    fillClosest blur gt u c i ∈ fillCandidates gt u c := by
  unfold fillClosest
  have hne2 : (((fillCandidates gt u c).map fun p =>
      blur gt.h gt.w gt.d (gt.data.map fun x =>
        if x = p then (1000 : ℚ) else 0)).map fun b => b.getD i 0) ≠ [] := by
    simp only [ne_eq, List.map_eq_nil_iff]
    exact hcne
  have hargLt : argmaxIdx (((fillCandidates gt u c).map fun p =>
        blur gt.h gt.w gt.d (gt.data.map fun x =>
          if x = p then (1000 : ℚ) else 0)).map fun b => b.getD i 0)
      < (fillCandidates gt u c).length := by
    have := argmaxIdx_lt_length _ hne2
    simpa [List.length_map] using this
  rw [List.getD_eq_getElem?_getD, List.getElem?_eq_getElem hargLt]
  exact List.getElem_mem _

theorem fill_err {blur : Blur} {gt : Vol} {u c : Int} {out : Vol} {e : Err}
    (h : fill_unknown_labels_per_hemi blur gt u c = (out, some e)) :
    out = gt ∧ e = .pyValueError := by
  unfold fill_unknown_labels_per_hemi at h
  split at h
  · exact ⟨(Prod.mk.injEq _ _ _ _ ▸ h).1.symm,
      by cases h; rfl⟩
  · simp at h

theorem fill_ok_shape {blur : Blur} {gt : Vol} {u c : Int} {out : Vol}
    (h : fill_unknown_labels_per_hemi blur gt u c = (out, none)) :
    out.h = gt.h ∧ out.w = gt.w ∧ out.d = gt.d ∧
      out.data.length = gt.data.length ∧ fillCandidates gt u c ≠ [] := by
  unfold fill_unknown_labels_per_hemi at h
  split at h
  · simp at h
  · next hne =>
    have hout := (Prod.mk.injEq _ _ _ _ ▸ h).1
    refine ⟨by rw [← hout], by rw [← hout], by rw [← hout], ?_, ?_⟩
    · rw [← hout]
      simp [List.enum_length]
    · simpa [List.isEmpty_iff] using hne

theorem fill_frame {blur : Blur} {gt : Vol} {u c : Int} {out : Vol}
    (h : fill_unknown_labels_per_hemi blur gt u c = (out, none))
    (i : Nat) (hi : i < gt.data.length) (hne : gt.data.getD i 0 ≠ u) :
    out.data.getD i 0 = gt.data.getD i 0 := by
  unfold fill_unknown_labels_per_hemi at h
  split at h
  · simp at h
  · have hout := (Prod.mk.injEq _ _ _ _ ▸ h).1
    rw [← hout]
    rw [getD_enum_map _ _ _ hi]
    show (if gt.data.getD i 0 = u then fillClosest blur gt u c i
      else gt.data.getD i 0) = gt.data.getD i 0
    rw [if_neg hne]

theorem fill_assign {blur : Blur} {gt : Vol} {u c : Int} {out : Vol}
    (h : fill_unknown_labels_per_hemi blur gt u c = (out, none))
    (i : Nat) (hi : i < gt.data.length) (heq : gt.data.getD i 0 = u) :
    out.data.getD i 0 ∈ fillCandidates gt u c := by
  unfold fill_unknown_labels_per_hemi at h
  split at h
  · simp at h
  · next hne =>
    have hout := (Prod.mk.injEq _ _ _ _ ▸ h).1
    rw [← hout]
    rw [getD_enum_map _ _ _ hi]
    show (if gt.data.getD i 0 = u then fillClosest blur gt u c i
      else gt.data.getD i 0) ∈ fillCandidates gt u c
    rw [if_pos heq]
    exact fillClosest_mem blur gt u c i (by simpa [List.isEmpty_iff] using hne)

/-- C10: `fill_unknown_labels_per_hemi` returns (for any blur) a same-shape
volume that agrees with the input everywhere the input differs from
`unknown_label`, and assigns every `unknown_label` voxel one of the candidate
parcel IDs, which all lie strictly between `unknown_label` and `cortex_stop`. -/
theorem C10_fill_unknown_frame (blur : Blur) (gt : Vol) (u c : Int) (out : Vol)
    (hok : fill_unknown_labels_per_hemi blur gt u c = (out, none)) :
    out.h = gt.h ∧ out.w = gt.w ∧ out.d = gt.d ∧
    out.data.length = gt.data.length ∧
    (∀ i, i < gt.data.length → gt.data.getD i 0 ≠ u →
      out.data.getD i 0 = gt.data.getD i 0) ∧
    (∀ i, i < gt.data.length → gt.data.getD i 0 = u →
      out.data.getD i 0 ∈ fillCandidates gt u c ∧
      u < out.data.getD i 0 ∧ out.data.getD i 0 < c) := by
  obtain ⟨h1, h2, h3, h4, -⟩ := fill_ok_shape hok
  refine ⟨h1, h2, h3, h4, fun i hi hne => fill_frame hok i hi hne,
    fun i hi heq => ?_⟩
  have hmem := fill_assign hok i hi heq
  exact ⟨hmem, (mem_fillCandidates_bounds hmem).1, (mem_fillCandidates_bounds hmem).2⟩

/-- A trivial blur (identity on the data list), used to instantiate the
blur-parametric theorems at concrete inputs. -/
def blurIdentity : Blur := fun _ _ _ l => l

theorem C10_fill_unknown_frame_witness :
    (⟨1, 1, 3, [15, 15, 15]⟩ : Vol).h = (⟨1, 1, 3, [10, 15, 15]⟩ : Vol).h ∧
    (⟨1, 1, 3, [15, 15, 15]⟩ : Vol).w = (⟨1, 1, 3, [10, 15, 15]⟩ : Vol).w ∧
    (⟨1, 1, 3, [15, 15, 15]⟩ : Vol).d = (⟨1, 1, 3, [10, 15, 15]⟩ : Vol).d ∧
    (⟨1, 1, 3, [15, 15, 15]⟩ : Vol).data.length
      = (⟨1, 1, 3, [10, 15, 15]⟩ : Vol).data.length ∧
    (∀ i, i < (⟨1, 1, 3, [10, 15, 15]⟩ : Vol).data.length →
      (⟨1, 1, 3, [10, 15, 15]⟩ : Vol).data.getD i 0 ≠ 10 →
      (⟨1, 1, 3, [15, 15, 15]⟩ : Vol).data.getD i 0
        = (⟨1, 1, 3, [10, 15, 15]⟩ : Vol).data.getD i 0) ∧
    (∀ i, i < (⟨1, 1, 3, [10, 15, 15]⟩ : Vol).data.length →
      (⟨1, 1, 3, [10, 15, 15]⟩ : Vol).data.getD i 0 = 10 →
      (⟨1, 1, 3, [15, 15, 15]⟩ : Vol).data.getD i 0
        ∈ fillCandidates ⟨1, 1, 3, [10, 15, 15]⟩ 10 20 ∧
      10 < (⟨1, 1, 3, [15, 15, 15]⟩ : Vol).data.getD i 0 ∧
      (⟨1, 1, 3, [15, 15, 15]⟩ : Vol).data.getD i 0 < 20) :=
  C10_fill_unknown_frame blurIdentity ⟨1, 1, 3, [10, 15, 15]⟩ 10 20
    ⟨1, 1, 3, [15, 15, 15]⟩ (by decide)

/-! ### Cortex fusion (`fuse_cortex_labels`) -/

/-- The 14-ID allow-list of `fuse_cortex_labels` (data_utils.py lines
745-758), in source order. -/
def allowList : List Int :=
  [2014, 2028, 2012, 2016, 2002, 2023, 2017, 2024, 2010, 2013, 2025, 2022,
   2021, 2005]

/-- De-lateralization: `aparc[(aparc >= 2000) & (aparc <= 2999)] -= 1000`. -/
def delatVol (v : Vol) : Vol :=
  ⟨v.h, v.w, v.d, v.data.map fun x =>
    if 2000 ≤ x ∧ x ≤ 2999 then x - 1000 else x⟩

/-- One re-lateralization line `aparc[aparc_temp == k] = k`, with `temp` the
saved pre-cleanup copy. -/
def relatStep (temp : List Int) (k : Int) (cur : List Int) : List Int :=
  List.zipWith (fun t a => if t = k then k else a) temp cur

/-- `fuse_cortex_labels` (data_utils.py lines 714-760): save a copy, clean,
fill the unknown label of each hemisphere when present, de-lateralize
[2000, 2999] by −1000, then restore each allow-list ID at the voxels whose
*original* value was that ID. -/
def fuse_cortex_labels (blur : Blur) (aparc : Vol) : Vol × Option Err :=
  match (if (clean_cortex_labels aparc).data.any fun x => x == 1000
    then fill_unknown_labels_per_hemi blur (clean_cortex_labels aparc) 1000 2000
    else (clean_cortex_labels aparc, none)) with
  | (v2, some e) => (v2, some e)
  | (v2, none) =>
    match (if v2.data.any fun x => x == 2000
      then fill_unknown_labels_per_hemi blur v2 2000 3000 else (v2, none)) with
    | (v3, some e) => (v3, some e)
    | (v3, none) =>
      (⟨(delatVol v3).h, (delatVol v3).w, (delatVol v3).d,
        allowList.foldl (fun cur k => relatStep aparc.data k cur)
          (delatVol v3).data⟩, none)

theorem clean_elem_of_ge {x : Int} (h : 86 ≤ x) : clean_elem x = x := by
  have h80 : x ≠ 80 := by omega
  have h85 : x ≠ 85 := by omega
  have h62 : x ≠ 62 := by omega
  have h30 : x ≠ 30 := by omega
  have h72 : x ≠ 72 := by omega
  have h29 : x ≠ 29 := by omega
  have h61 : x ≠ 61 := by omega
  have h3 : x ≠ 3 := by omega
  have h42 : x ≠ 42 := by omega
  simp [clean_elem, subst, h80, h85, h62, h30, h72, h29, h61, h3, h42]

theorem zipWith_getD (f : Int → Int → Int) (l1 l2 : List Int) (i : Nat)
    (h1 : i < l1.length) (h2 : i < l2.length) :
    (List.zipWith f l1 l2).getD i 0 = f (l1.getD i 0) (l2.getD i 0) := by
  induction l1 generalizing l2 i with
  | nil => cases h1
  | cons a t ih =>
    cases l2 with
    | nil => cases h2
    | cons b s =>
      cases i with
      | zero => rfl
      | succ j =>
        have hj1 : j < t.length := Nat.lt_of_succ_lt_succ h1
        have hj2 : j < s.length := Nat.lt_of_succ_lt_succ h2
        simpa using ih s j hj1 hj2

theorem relatStep_length (temp : List Int) (k : Int) (cur : List Int) :
    (relatStep temp k cur).length = min temp.length cur.length := by
  simp [relatStep]

theorem relat_foldl_length (ks : List Int) (temp cur : List Int)
    (h : cur.length ≤ temp.length) :
    (ks.foldl (fun c k => relatStep temp k c) cur).length = cur.length := by
  induction ks generalizing cur with
  | nil => rfl
  | cons k ks ih =>
    have hlen : (relatStep temp k cur).length = cur.length := by
      rw [relatStep_length]
      omega
    have := ih (relatStep temp k cur) (by omega)
    simpa [hlen] using this

theorem relat_foldl_getD (ks : List Int) (temp cur : List Int)
    (h : cur.length ≤ temp.length) (i : Nat) (hi : i < cur.length) :
    (ks.foldl (fun c k => relatStep temp k c) cur).getD i 0 =
      if temp.getD i 0 ∈ ks then temp.getD i 0 else cur.getD i 0 := by
  induction ks generalizing cur with
  | nil => simp
  | cons k ks ih =>
    have hlen : (relatStep temp k cur).length = cur.length := by
      rw [relatStep_length]
      omega
    have hstep : (relatStep temp k cur).getD i 0 =
        if temp.getD i 0 = k then k else cur.getD i 0 :=
      zipWith_getD _ temp cur i (Nat.lt_of_lt_of_le hi h) hi
    have hrec := ih (relatStep temp k cur) (by omega) (by omega)
    rw [List.foldl_cons, hrec, hstep]
    by_cases hm : temp.getD i 0 ∈ ks
    · rw [if_pos hm, if_pos (List.mem_cons.mpr (Or.inr hm))]
    · rw [if_neg hm]
      by_cases he : temp.getD i 0 = k
      · rw [if_pos he, if_pos (List.mem_cons.mpr (Or.inl he))]
        exact he.symm
      · rw [if_neg he, if_neg (fun hc => (List.mem_cons.mp hc).elim he hm)]

theorem allowList_bounds : ∀ x ∈ allowList, 2001 ≤ x ∧ x ≤ 2999 := by
  intro x hx
  fin_cases hx <;> norm_num

/-- Frame property for one conditional fill step of `fuse_cortex_labels`. -/
theorem fill_step_frame (blur : Blur) (u c : Int) (b : Bool) (w v2 : Vol)
    (h : (if b then fill_unknown_labels_per_hemi blur w u c else (w, none))
      = (v2, none)) :
    v2.h = w.h ∧ v2.w = w.w ∧ v2.d = w.d ∧
    v2.data.length = w.data.length ∧
    ∀ i, i < w.data.length → w.data.getD i 0 ≠ u →
      v2.data.getD i 0 = w.data.getD i 0 := by
  cases b with
  | false =>
    rw [if_neg (by simp)] at h
    have hv : w = v2 := (Prod.mk.injEq _ _ _ _ ▸ h).1
    subst hv
    exact ⟨rfl, rfl, rfl, rfl, fun _ _ _ => rfl⟩
  | true =>
    rw [if_pos (by simp)] at h
    obtain ⟨h1, h2, h3, h4, -⟩ := fill_ok_shape h
    exact ⟨h1, h2, h3, h4, fun i hi hne => fill_frame h i hi hne⟩

/-- C4 (amended): after `fuse_cortex_labels` (whenever it returns), every voxel
whose original value lies in [2001, 2999] outside the allow-list ends up at
that value minus 1000, and every voxel whose original value is in the
allow-list keeps its original right-hemisphere ID. (Original value exactly
2000 — the rh-unknown label — is excluded: it is rewritten by the unknown
filling step before de-lateralization.) -/
theorem C4_fuse_delateralization (blur : Blur) (aparc out : Vol)
    (hok : fuse_cortex_labels blur aparc = (out, none))
    (i : Nat) (hi : i < aparc.data.length) :
    (2001 ≤ aparc.data.getD i 0 → aparc.data.getD i 0 ≤ 2999 →
      aparc.data.getD i 0 ∉ allowList →
      out.data.getD i 0 = aparc.data.getD i 0 - 1000) ∧
    (aparc.data.getD i 0 ∈ allowList →
      out.data.getD i 0 = aparc.data.getD i 0) := by
  unfold fuse_cortex_labels at hok
  split at hok
  · simp at hok
  next v2 h2 =>
    split at hok
    · simp at hok
    next v3 h3 =>
      have hout := (Prod.mk.injEq _ _ _ _ ▸ hok).1
      -- value bookkeeping through the pipeline, for any original value x
      -- with 2001 ≤ x ≤ 2999
      have key : ∀ x, aparc.data.getD i 0 = x → 2001 ≤ x → x ≤ 2999 →
          out.data.getD i 0 =
            if aparc.data.getD i 0 ∈ allowList then aparc.data.getD i 0
            else x - 1000 := by
        intro x hx h1 h2b
        have hclean_len : (clean_cortex_labels aparc).data.length
            = aparc.data.length := by simp [clean_cortex_labels]
        have hclean_get : (clean_cortex_labels aparc).data.getD i 0 = x := by
          unfold clean_cortex_labels
          rw [getD_map_lt clean_elem aparc.data i hi 0, hx]
          exact clean_elem_of_ge (by omega)
        obtain ⟨-, -, -, hlen2, hget2⟩ :=
          fill_step_frame blur 1000 2000 _ _ v2 h2
        have hv2len : v2.data.length = aparc.data.length := by
          rw [hlen2, hclean_len]
        have hv2get : v2.data.getD i 0 = x := by
          rw [hget2 i (by omega) (by rw [hclean_get]; omega), hclean_get]
        obtain ⟨-, -, -, hlen3, hget3⟩ :=
          fill_step_frame blur 2000 3000 _ _ v3 h3
        have hv3len : v3.data.length = aparc.data.length := by
          rw [hlen3, hv2len]
        have hv3get : v3.data.getD i 0 = x := by
          rw [hget3 i (by omega) (by rw [hv2get]; omega), hv2get]
        have hdelat_len : (delatVol v3).data.length = aparc.data.length := by
          simp [delatVol, hv3len]
        have hdelat_get : (delatVol v3).data.getD i 0 = x - 1000 := by
          unfold delatVol
          rw [getD_map_lt _ v3.data i (by omega) 0, hv3get]
          rw [if_pos (by omega)]
        rw [← hout]
        show (allowList.foldl (fun cur k => relatStep aparc.data k cur)
          (delatVol v3).data).getD i 0 = _
        rw [relat_foldl_getD allowList aparc.data (delatVol v3).data
          (by omega) i (by omega), hdelat_get]
      constructor
      · intro h1 h2b hnotmem
        have := key (aparc.data.getD i 0) rfl h1 h2b
        rw [this, if_neg hnotmem]
      · intro hmem
        obtain ⟨hb1, hb2⟩ := allowList_bounds _ hmem
        have := key (aparc.data.getD i 0) rfl hb1 hb2
        rw [this, if_pos hmem]

/-- C4 counterexample: a voxel whose original value is exactly 2000 (inside
[2000, 2999], not in the allow-list) does NOT end at 2000 − 1000 = 1000: the
rh unknown-filling step rewrites it to the neighbouring parcel 2500 first, and
de-lateralization then yields 1500. -/
theorem C4_counterexample_2000 :
    fuse_cortex_labels blurIdentity ⟨1, 1, 3, [2000, 2500, 2500]⟩
      = (⟨1, 1, 3, [1500, 1500, 1500]⟩, none) ∧
    (2000 : Int) ∉ allowList ∧
    (1500 : Int) ≠ 2000 - 1000 := by decide

theorem C4_fuse_delateralization_witness :
    ((2001 ≤ (Vol.mk 1 1 2 [2003, 2014]).data.getD 0 0 →
      (Vol.mk 1 1 2 [2003, 2014]).data.getD 0 0 ≤ 2999 →
      (Vol.mk 1 1 2 [2003, 2014]).data.getD 0 0 ∉ allowList →
      (Vol.mk 1 1 2 [1003, 2014]).data.getD 0 0
        = (Vol.mk 1 1 2 [2003, 2014]).data.getD 0 0 - 1000) ∧
    ((Vol.mk 1 1 2 [2003, 2014]).data.getD 0 0 ∈ allowList →
      (Vol.mk 1 1 2 [1003, 2014]).data.getD 0 0
        = (Vol.mk 1 1 2 [2003, 2014]).data.getD 0 0)) ∧
    ((2001 ≤ (Vol.mk 1 1 2 [2003, 2014]).data.getD 1 0 →
      (Vol.mk 1 1 2 [2003, 2014]).data.getD 1 0 ≤ 2999 →
      (Vol.mk 1 1 2 [2003, 2014]).data.getD 1 0 ∉ allowList →
      (Vol.mk 1 1 2 [1003, 2014]).data.getD 1 0
        = (Vol.mk 1 1 2 [2003, 2014]).data.getD 1 0 - 1000) ∧
    ((Vol.mk 1 1 2 [2003, 2014]).data.getD 1 0 ∈ allowList →
      (Vol.mk 1 1 2 [1003, 2014]).data.getD 1 0
        = (Vol.mk 1 1 2 [2003, 2014]).data.getD 1 0)) :=
  ⟨C4_fuse_delateralization blurIdentity ⟨1, 1, 2, [2003, 2014]⟩
      ⟨1, 1, 2, [1003, 2014]⟩ (by decide) 0 (by decide),
   C4_fuse_delateralization blurIdentity ⟨1, 1, 2, [2003, 2014]⟩
      ⟨1, 1, 2, [1003, 2014]⟩ (by decide) 1 (by decide)⟩

/-! ### Full label-space mapping (`map_aparc_aseg2label`) -/

/-- The `processing` mode string of `map_aparc_aseg2label`: `"aparc"`,
`"aseg"`, or any other string (which selects no extra branch). -/
inductive Proc where
  | aparc
  | aseg
  | other
  deriving DecidableEq, Repr

/-- The seven in-place rewrites of the `"aseg"` branch (data_utils.py lines
966-974), composed in source order: 1000→3, 2000→42, 80→77, 85→0, 62→41,
30→2, 72→24. -/
def asegSubst (v : Vol) : Vol :=
  substVol 72 24 (substVol 30 2 (substVol 62 41 (substVol 85 0
    (substVol 80 77 (substVol 2000 42 (substVol 1000 3 v))))))

/-- The two assertions of the `"aseg"` branch (data_utils.py lines 976-981):
no CC class (251-255 or above) may remain, and both cortical markers 3 and 42
must be present. -/
def asegAsserts (v : Vol) : Option Err :=
  if v.data.any fun x => decide (251 ≤ x) then some .assertCC
  else if !((v.data.any fun x => x == 3) && (v.data.any fun x => x == 42)) then
    some .assertCortical
  else none

/-- `"aseg"` preprocessing: the rewrites, then the assertions (on assertion
failure the rewrites are already applied to the caller's buffer). -/
def preprocessAseg (v : Vol) : Vol × Option Err :=
  (asegSubst v, asegAsserts (asegSubst v))

/-- The corpus-callosum override (data_utils.py lines 957-960):
`aseg[cc_mask] = aseg_nocc[cc_mask]` with `cc_mask = (aseg >= 251) & (aseg <= 255)`;
numpy raises on differing shapes, before mutating `aseg`. -/
def ccOverride (noccOpt : Option Vol) (v : Vol) : Vol × Option Err :=
  match noccOpt with
  | none => (v, none)
  | some nocc =>
    if v.h = nocc.h ∧ v.w = nocc.w ∧ v.d = nocc.d then
      (⟨v.h, v.w, v.d, List.zipWith
        (fun a b => if 251 ≤ a ∧ a ≤ 255 then b else a) v.data nocc.data⟩, none)
    else (v, some .shapeMismatch)

/-- Everything `map_aparc_aseg2label` does to its `aseg` buffer before the
superset assertion: CC override, then the mode-specific branch. -/
def preprocessSt (blur : Blur) (proc : Proc) (noccOpt : Option Vol) (v : Vol) :
    Vol × Option Err :=
  match ccOverride noccOpt v with
  | (v1, some e) => (v1, some e)
  | (v1, none) =>
    match proc with
    | .aparc => fuse_cortex_labels blur v1
    | .aseg => preprocessAseg v1
    | .other => (v1, none)

/-- `np.max` of a list (callers raise `ValueError` on an empty list before
this is used). -/
def maxIntList (l : List Int) : Int := l.foldl max (l.headD 0)

/-- numpy index resolution on an axis of length `L`: a negative index wraps
by `+L`. -/
def npIdx (L : Nat) (val : Int) : Int :=
  if 0 ≤ val then val else (L : Int) + val

/-- The write loop `for idx, value in enumerate(labels): lut_aseg[value] = idx`
on a numpy array of length `L`, with numpy index semantics: a negative index
wraps by `+L`, an index outside `[-L, L)` raises `IndexError`. -/
def npBuildLut (L : Nat) : List (Nat × Int) → List Nat → Except Err (List Nat)
  | [], arr => .ok arr
  | (i, val) :: rest, arr =>
    if 0 ≤ npIdx L val ∧ npIdx L val < (L : Int) then
      npBuildLut L rest (arr.set (npIdx L val).toNat i)
    else .error .pyIndexError

/-- `lut_aseg = np.zeros(max(labels) + 1)` followed by the write loop:
`np.max` raises `ValueError` on an empty list and `np.zeros` on a negative
size. -/
def npLutArray (labels : List Int) : Except Err (List Nat) :=
  if labels.isEmpty then .error .pyValueError
  else if maxIntList labels + 1 < 0 then .error .pyValueError
  else npBuildLut (maxIntList labels + 1).toNat labels.enum
    (List.replicate (maxIntList labels + 1).toNat 0)

/-- numpy fancy indexing `arr.ravel()[vals]`: negative values wrap by the
array length, values outside `[-len, len)` raise `IndexError`. -/
def npGather (arr : List Nat) : List Int → Except Err (List Int)
  | [] => .ok []
  | val :: rest =>
    if 0 ≤ npIdx arr.length val ∧ npIdx arr.length val < (arr.length : Int) then
      match npGather arr rest with
      | .error e => .error e
      | .ok tail =>
        .ok (((arr.getD (npIdx arr.length val).toNat 0 : Nat) : Int) :: tail)
    else .error .pyIndexError

/-- The in-place mutations between the full-space gather and the sagittal
gather (data_utils.py lines 998-1006): a second de-lateralization when
processing is `"aparc"`, then the sequential left→right dict replacement loop
(`for left, right in sagittal_lut_dict.items(): aseg[aseg == left] = right`). -/
def postSagVol (sagittalLutDict : List (Int × Int)) (proc : Proc) (a : Vol) : Vol :=
  sagittalLutDict.foldl (fun acc p => substVol p.1 p.2 acc)
    (if proc = .aparc then delatVol a else a)

/-- `map_aparc_aseg2label` (data_utils.py lines 921-1017), state-passing: the
first component is the returned pair (full-space mapped volume, sagittal
mapped volume) or the raised exception; the second component is the caller's
`aseg` buffer at the moment of return or raise (the function mutates it in
place; `aseg_nocc` is only read). The superset assertion fires exactly when
the preprocessed volume contains a value outside `labels`. -/
def map_aparc_aseg2label (blur : Blur) (labels labelsSag : List Int)
    (sagittalLutDict : List (Int × Int)) (noccOpt : Option Vol) (proc : Proc)
    (aseg : Vol) : Except Err (Vol × Vol) × Vol :=
  match preprocessSt blur proc noccOpt aseg with
  | (a, some e) => (.error e, a)
  | (a, none) =>
    if a.data.all fun x => decide (x ∈ labels) then
      match npLutArray labels with
      | .error e => (.error e, a)
      | .ok arr =>
        match npGather arr a.data with
        | .error e => (.error e, a)
        | .ok mfullData =>
          match npLutArray labelsSag with
          | .error e => (.error e, postSagVol sagittalLutDict proc a)
          | .ok arrS =>
            match npGather arrS (postSagVol sagittalLutDict proc a).data with
            | .error e => (.error e, postSagVol sagittalLutDict proc a)
            | .ok msagData =>
              (.ok (⟨a.h, a.w, a.d, mfullData⟩, ⟨a.h, a.w, a.d, msagData⟩),
                postSagVol sagittalLutDict proc a)
    else (.error .unmappedLabel, a)

theorem fill_step_err {blur : Blur} {u c : Int} {b : Bool} {w v2 : Vol} {e : Err}
    (h : (if b then fill_unknown_labels_per_hemi blur w u c else (w, none))
      = (v2, some e)) : e = .pyValueError := by
  cases b with
  | false => rw [if_neg (by simp)] at h; simp at h
  | true => rw [if_pos (by simp)] at h; exact (fill_err h).2

theorem fuse_err {blur : Blur} {aparc out : Vol} {e : Err}
    (h : fuse_cortex_labels blur aparc = (out, some e)) : e = .pyValueError := by
  unfold fuse_cortex_labels at h
  split at h
  next v2 e2 h2 =>
    have he : e2 = e := by cases h; rfl
    rw [← he]
    exact fill_step_err h2
  next v2 h2 =>
    split at h
    next v3 e3 h3 =>
      have he : e3 = e := by cases h; rfl
      rw [← he]
      exact fill_step_err h3
    next v3 h3 => simp at h

theorem asegAsserts_err {v : Vol} {e : Err} (h : asegAsserts v = some e) :
    e = .assertCC ∨ e = .assertCortical := by
  unfold asegAsserts at h
  split_ifs at h
  · exact Or.inl (Option.some.inj h).symm
  · exact Or.inr (Option.some.inj h).symm

theorem ccOverride_err {noccOpt : Option Vol} {v v1 : Vol} {e : Err}
    (h : ccOverride noccOpt v = (v1, some e)) : e = .shapeMismatch := by
  unfold ccOverride at h
  match noccOpt with
  | none => simp at h
  | some nocc =>
    simp only at h
    split at h
    · simp at h
    · cases h; rfl

theorem preprocess_err_ne_unmapped {blur : Blur} {proc : Proc}
    {noccOpt : Option Vol} {v a : Vol} {e : Err}
    (h : preprocessSt blur proc noccOpt v = (a, some e)) :
    e ≠ .unmappedLabel := by
  unfold preprocessSt at h
  split at h
  next v1 e1 h1 =>
    have he : e1 = e := by cases h; rfl
    rw [← he, ccOverride_err h1]
    intro hc
    cases hc
  next v1 h1 =>
    cases proc with
    | aparc =>
      rw [fuse_err h]
      intro hc; cases hc
    | aseg =>
      have he : asegAsserts (asegSubst v1) = some e := by
        simp only [preprocessAseg] at h
        exact (Prod.mk.injEq _ _ _ _ ▸ h).2
      rcases asegAsserts_err he with h2 | h2 <;> rw [h2] <;> intro hc <;> cases hc
    | other => simp at h

theorem npBuildLut_err {L : Nat} :
    ∀ {ps : List (Nat × Int)} {arr : List Nat} {e : Err},
      npBuildLut L ps arr = .error e → e = .pyIndexError := by
  intro ps
  induction ps with
  | nil => intro arr e h; simp [npBuildLut] at h
  | cons p rest ih =>
    intro arr e h
    rw [npBuildLut] at h
    split at h
    · exact ih h
    · cases h; rfl

theorem npLutArray_err {labels : List Int} {e : Err}
    (h : npLutArray labels = .error e) :
    e = .pyValueError ∨ e = .pyIndexError := by
  unfold npLutArray at h
  split at h
  · exact Or.inl (by cases h; rfl)
  · split at h
    · exact Or.inl (by cases h; rfl)
    · exact Or.inr (npBuildLut_err h)

theorem npGather_err {arr : List Nat} :
    ∀ {vals : List Int} {e : Err},
      npGather arr vals = .error e → e = .pyIndexError := by
  intro vals
  induction vals with
  | nil => intro e h; simp [npGather] at h
  | cons v rest ih =>
    intro e h
    rw [npGather] at h
    split at h
    · split at h
      · next herr => exact ih (herr.trans h)
      · simp at h
    · exact (Except.error.inj h).symm

theorem headD_mem_self {α : Type} (l : List α) (d : α) (h : l ≠ []) :
    l.headD d ∈ l := by
  cases l with
  | nil => exact absurd rfl h
  | cons a t => exact List.mem_cons_self a t

theorem le_foldl_max (l : List Int) : ∀ init : Int, init ≤ l.foldl max init := by
  induction l with
  | nil => intro init; exact le_refl _
  | cons a t ih =>
    intro init
    calc init ≤ max init a := le_max_left _ _
    _ ≤ t.foldl max (max init a) := ih _

theorem mem_le_foldl_max (l : List Int) :
    ∀ (init x : Int), x ∈ l → x ≤ l.foldl max init := by
  induction l with
  | nil => intro _ x hx; cases hx
  | cons a t ih =>
    intro init x hx
    rcases List.mem_cons.mp hx with rfl | hxt
    · calc x ≤ max init x := le_max_right _ _
      _ ≤ t.foldl max (max init x) := le_foldl_max t _
    · exact ih _ x hxt

theorem le_maxIntList {l : List Int} {x : Int} (hx : x ∈ l) :
    x ≤ maxIntList l :=
  mem_le_foldl_max l _ x hx

theorem maxIntList_nonneg {l : List Int} (hne : l ≠ [])
    (hnn : ∀ x ∈ l, 0 ≤ x) : 0 ≤ maxIntList l :=
  le_trans (hnn _ (headD_mem_self l 0 hne)) (le_maxIntList (headD_mem_self l 0 hne))

theorem npBuildLut_length {L : Nat} :
    ∀ {ps : List (Nat × Int)} {arr out : List Nat},
      npBuildLut L ps arr = .ok out → out.length = arr.length := by
  intro ps
  induction ps with
  | nil =>
    intro arr out h
    rw [Except.ok.inj h]
  | cons p rest ih =>
    intro arr out h
    obtain ⟨i, val⟩ := p
    rw [npBuildLut] at h
    split at h
    · rw [ih h, List.length_set]
    · exact Except.noConfusion h

theorem npBuildLut_ok {L : Nat} :
    ∀ (ps : List (Nat × Int)) (arr : List Nat),
      (∀ pr ∈ ps, 0 ≤ pr.2 ∧ pr.2 < (L : Int)) →
      ∃ out, npBuildLut L ps arr = .ok out := by
  intro ps
  induction ps with
  | nil => intro arr _; exact ⟨arr, rfl⟩
  | cons p rest ih =>
    intro arr hb
    obtain ⟨i, val⟩ := p
    obtain ⟨h0, hL⟩ := hb (i, val) (List.mem_cons_self _ rest)
    have hpos : npIdx L val = val := if_pos h0
    rw [npBuildLut, hpos, if_pos ⟨h0, hL⟩]
    exact ih _ fun pr hpr => hb pr (List.mem_cons_of_mem _ hpr)

theorem npBuildLut_eval {L : Nat} :
    ∀ (ps : List (Nat × Int)) (arr out : List Nat),
      npBuildLut L ps arr = .ok out →
      ∀ (v : Int) (i : Nat), 0 ≤ v → v < (L : Int) → arr.length = L →
      (∀ pr ∈ ps, 0 ≤ pr.2) →
      ps.countP (fun pr => pr.2 == v) ≤ 1 →
      ((i, v) ∈ ps ∨ ((∀ pr ∈ ps, pr.2 ≠ v) ∧ arr.getD v.toNat 0 = i)) →
      out.getD v.toNat 0 = i := by
  intro ps
  induction ps with
  | nil =>
    intro arr out h v i hv hvL hlen hnn hcnt hcase
    rcases hcase with hmem | ⟨-, hget⟩
    · cases hmem
    · exact Except.ok.inj h ▸ hget
  | cons p rest ih =>
    intro arr out h v i hv hvL hlen hnn hcnt hcase
    obtain ⟨j, u⟩ := p
    have hu0 : 0 ≤ u := hnn (j, u) (List.mem_cons_self _ rest)
    have hpos : npIdx L u = u := if_pos hu0
    rw [npBuildLut, hpos] at h
    rw [List.countP_cons] at hcnt
    split at h
    · rcases hcase with hmem | ⟨hall, hget⟩
      · rcases List.mem_cons.mp hmem with heq | hrest
        · injection heq with hji hvu
          subst hji
          subst hvu
          have hrest0 : rest.countP (fun pr => pr.2 == v) = 0 := by
            simp only [beq_self_eq_true, if_pos] at hcnt
            omega
          have hallrest : ∀ pr ∈ rest, pr.2 ≠ v := by
            intro pr hpr
            have := List.countP_eq_zero.mp hrest0 pr hpr
            simpa using this
          refine ih _ out h v i hv hvL
            (by rw [List.length_set, hlen])
            (fun pr hpr => hnn pr (List.mem_cons_of_mem _ hpr))
            (by rw [hrest0]; omega) (Or.inr ⟨hallrest, ?_⟩)
          rw [List.getD_eq_getElem?_getD,
            List.getElem?_set_eq_of_lt _ (by omega)]
          rfl
        · refine ih _ out h v i hv hvL
            (by rw [List.length_set, hlen])
            (fun pr hpr => hnn pr (List.mem_cons_of_mem _ hpr))
            (by omega) (Or.inl hrest)
      · have hne : u ≠ v := hall (j, u) (List.mem_cons_self _ rest)
        refine ih _ out h v i hv hvL
          (by rw [List.length_set, hlen])
          (fun pr hpr => hnn pr (List.mem_cons_of_mem _ hpr))
          (by omega)
          (Or.inr ⟨fun pr hpr => hall pr (List.mem_cons_of_mem _ hpr), ?_⟩)
        rw [List.getD_eq_getElem?_getD, List.getElem?_set_ne (by omega),
          ← List.getD_eq_getElem?_getD]
        exact hget
    · exact Except.noConfusion h

theorem npLutArray_ok {labels : List Int} (hne : labels ≠ [])
    (hnn : ∀ x ∈ labels, 0 ≤ x) :
    ∃ arr, npLutArray labels = .ok arr ∧
      arr.length = (maxIntList labels + 1).toNat ∧
      (labels.Nodup → ∀ x ∈ labels,
        arr.getD x.toNat 0 = labels.indexOf x) := by
  have hmax0 : 0 ≤ maxIntList labels := maxIntList_nonneg hne hnn
  have hbounds : ∀ pr ∈ labels.enum,
      0 ≤ pr.2 ∧ pr.2 < (((maxIntList labels + 1).toNat : Nat) : Int) := by
    intro pr hpr
    have hmem : pr.2 ∈ labels := by
      have hs := List.enum_map_snd labels
      exact hs ▸ List.mem_map_of_mem Prod.snd hpr
    have h1 := hnn _ hmem
    have h2 := le_maxIntList hmem
    exact ⟨h1, by omega⟩
  obtain ⟨arr, harr⟩ :=
    npBuildLut_ok labels.enum (List.replicate (maxIntList labels + 1).toNat 0)
      hbounds
  refine ⟨arr, ?_, ?_, ?_⟩
  · unfold npLutArray
    rw [if_neg (by simp [hne]), if_neg (by omega)]
    exact harr
  · rw [npBuildLut_length harr, List.length_replicate]
  · intro hnd x hx
    have hidx : (labels.indexOf x, x) ∈ labels.enum := by
      rw [List.mk_mem_enum_iff_getElem?,
        List.getElem?_eq_getElem (List.indexOf_lt_length.mpr hx),
        List.getElem_indexOf]
    have hcnt : labels.enum.countP (fun pr => pr.2 == x) ≤ 1 := by
      have h1 := List.countP_map (fun b : Int => b == x) Prod.snd labels.enum
      rw [List.enum_map_snd] at h1
      have h2 : labels.enum.countP (fun pr => pr.2 == x)
          = labels.countP (fun b => b == x) := by
        rw [h1]
        rfl
      rw [h2, ← List.count_eq_countP]
      exact List.nodup_iff_count_le_one.mp hnd x
    exact npBuildLut_eval labels.enum _ arr harr x (labels.indexOf x)
      (hnn x hx) (by have := le_maxIntList hx; omega)
      (by rw [List.length_replicate])
      (fun pr hpr => (hbounds pr hpr).1) hcnt (Or.inl hidx)

theorem npGather_ok {arr : List Nat} :
    ∀ {vals : List Int},
      (∀ x ∈ vals, 0 ≤ x ∧ x < (arr.length : Int)) →
      npGather arr vals
        = .ok (vals.map fun x => ((arr.getD x.toNat 0 : Nat) : Int)) := by
  intro vals
  induction vals with
  | nil => intro _; rfl
  | cons v rest ih =>
    intro hb
    obtain ⟨h0, hL⟩ := hb v (List.mem_cons_self v rest)
    have hpos : npIdx arr.length v = v := if_pos h0
    rw [npGather, hpos, if_pos ⟨h0, hL⟩,
      ih fun x hx => hb x (List.mem_cons_of_mem _ hx)]
    rfl

/-- Full reduction of `map_aparc_aseg2label` on the success path. -/
theorem map_ok_of {blur : Blur} {labels labelsSag : List Int}
    {sagittalLutDict : List (Int × Int)} {noccOpt : Option Vol} {proc : Proc}
    {aseg a : Vol} {arr arrS : List Nat} {mfullData msagData : List Int}
    (hpre : preprocessSt blur proc noccOpt aseg = (a, none))
    (hsup : (a.data.all fun x => decide (x ∈ labels)) = true)
    (harr : npLutArray labels = .ok arr)
    (hg : npGather arr a.data = .ok mfullData)
    (harrS : npLutArray labelsSag = .ok arrS)
    (hgS : npGather arrS (postSagVol sagittalLutDict proc a).data
      = .ok msagData) :
    map_aparc_aseg2label blur labels labelsSag sagittalLutDict noccOpt proc aseg
      = (.ok (⟨a.h, a.w, a.d, mfullData⟩, ⟨a.h, a.w, a.d, msagData⟩),
          postSagVol sagittalLutDict proc a) := by
  unfold map_aparc_aseg2label
  rw [hpre]
  dsimp only
  rw [if_pos hsup, harr]
  dsimp only
  rw [hg]
  dsimp only
  rw [harrS]
  dsimp only
  rw [hgS]

/-- Once the superset assertion has passed, `map_aparc_aseg2label` cannot
raise the unmapped-label error any more. -/
theorem map_after_superset_ne_unmapped {blur : Blur}
    {labels labelsSag : List Int} {sagittalLutDict : List (Int × Int)}
    {noccOpt : Option Vol} {proc : Proc} {aseg a : Vol}
    (hpre : preprocessSt blur proc noccOpt aseg = (a, none))
    (hsup : (a.data.all fun x => decide (x ∈ labels)) = true) :
    (map_aparc_aseg2label blur labels labelsSag sagittalLutDict noccOpt proc
      aseg).1 ≠ .error .unmappedLabel := by
  unfold map_aparc_aseg2label
  rw [hpre]
  dsimp only
  rw [if_pos hsup]
  cases harr : npLutArray labels with
  | error e =>
    dsimp only
    intro h
    rcases npLutArray_err harr with rfl | rfl <;>
      exact Err.noConfusion (Except.error.inj h)
  | ok arr =>
    dsimp only
    cases hg : npGather arr a.data with
    | error e =>
      dsimp only
      intro h
      have := npGather_err hg
      subst this
      exact Err.noConfusion (Except.error.inj h)
    | ok mfullData =>
      dsimp only
      cases harrS : npLutArray labelsSag with
      | error e =>
        dsimp only
        intro h
        rcases npLutArray_err harrS with rfl | rfl <;>
          exact Err.noConfusion (Except.error.inj h)
      | ok arrS =>
        dsimp only
        cases hgS : npGather arrS (postSagVol sagittalLutDict proc a).data with
        | error e =>
          dsimp only
          intro h
          have := npGather_err hgS
          subst this
          exact Err.noConfusion (Except.error.inj h)
        | ok msagData =>
          dsimp only
          intro h
          exact Except.noConfusion h

/-- C1: `map_aparc_aseg2label` raises the unmapped-label assertion exactly
when the preprocessing (CC override plus aparc fusion / aseg rewrites)
completes and leaves a value outside the declared full label list; and
whenever preprocessing completes with all values in the list (for a
well-formed label configuration: nonempty, duplicate-free, non-negative label
lists, and sagittal replacement staying within the sagittal lookup range), it
returns, with every voxel of the full-space output equal to the position of
that voxel's (preprocessed) ID in the label list — no ID is silently mapped
to 0. -/
theorem C1_map_superset_iff_and_positions (blur : Blur)
    (labels labelsSag : List Int) (sagittalLutDict : List (Int × Int))
    (noccOpt : Option Vol) (proc : Proc) (aseg : Vol) :
    ((map_aparc_aseg2label blur labels labelsSag sagittalLutDict noccOpt proc
        aseg).1 = .error .unmappedLabel ↔
      ∃ a, preprocessSt blur proc noccOpt aseg = (a, none) ∧
        ∃ x ∈ a.data, x ∉ labels) ∧
    (∀ a, preprocessSt blur proc noccOpt aseg = (a, none) →
      (∀ x ∈ a.data, x ∈ labels) →
      labels ≠ [] → labels.Nodup → (∀ l ∈ labels, 0 ≤ l) →
      labelsSag ≠ [] → (∀ l ∈ labelsSag, 0 ≤ l) →
      (∀ x ∈ (postSagVol sagittalLutDict proc a).data,
        0 ≤ x ∧ x ≤ maxIntList labelsSag) →
      ∃ msag, (map_aparc_aseg2label blur labels labelsSag sagittalLutDict
          noccOpt proc aseg).1
        = .ok (⟨a.h, a.w, a.d,
            a.data.map fun x => ((labels.indexOf x : Nat) : Int)⟩, msag)) := by
  rcases hpre : preprocessSt blur proc noccOpt aseg with ⟨a0, eopt⟩
  cases eopt with
  | some e =>
    have hmap : (map_aparc_aseg2label blur labels labelsSag sagittalLutDict
        noccOpt proc aseg).1 = .error e := by
      unfold map_aparc_aseg2label
      rw [hpre]
    constructor
    · rw [hmap]
      constructor
      · intro h
        exact absurd (Except.error.inj h) (preprocess_err_ne_unmapped hpre)
      · rintro ⟨a, ha, -⟩
        exact Option.noConfusion (Prod.mk.injEq _ _ _ _ ▸ ha).2
    · intro a ha
      exact absurd (Prod.mk.injEq _ _ _ _ ▸ ha).2 (by simp)
  | none =>
    by_cases hsup : (a0.data.all fun x => decide (x ∈ labels)) = true
    · have hsup' : ∀ x ∈ a0.data, x ∈ labels := by
        intro x hx
        simpa using List.all_eq_true.mp hsup x hx
      constructor
      · constructor
        · intro h
          exact absurd h (map_after_superset_ne_unmapped hpre hsup)
        · rintro ⟨a, ha, x, hx, hnx⟩
          have haa : a0 = a := (Prod.mk.injEq _ _ _ _ ▸ ha).1
          subst haa
          exact absurd (hsup' x hx) hnx
      · intro a ha hsupa hlne hnd hnn hsne hsnn hbound
        have haa : a0 = a := (Prod.mk.injEq _ _ _ _ ▸ ha).1
        subst haa
        obtain ⟨arr, harr, harrlen, hidx⟩ := npLutArray_ok hlne hnn
        have hgb : ∀ x ∈ a0.data, 0 ≤ x ∧ x < (arr.length : Int) := by
          intro x hx
          have h1 := hnn x (hsupa x hx)
          have h2 := le_maxIntList (hsupa x hx)
          rw [harrlen]
          exact ⟨h1, by omega⟩
        have hg := npGather_ok hgb
        obtain ⟨arrS, harrS, harrSlen, -⟩ := npLutArray_ok hsne hsnn
        have hgbS : ∀ x ∈ (postSagVol sagittalLutDict proc a0).data,
            0 ≤ x ∧ x < (arrS.length : Int) := by
          intro x hx
          obtain ⟨h1, h2⟩ := hbound x hx
          rw [harrSlen]
          have := maxIntList_nonneg hsne hsnn
          exact ⟨h1, by omega⟩
        have hgS := npGather_ok hgbS
        have hfull := map_ok_of hpre hsup harr hg harrS hgS
        refine ⟨⟨a0.h, a0.w, a0.d,
          (postSagVol sagittalLutDict proc a0).data.map fun x =>
            ((arrS.getD x.toNat 0 : Nat) : Int)⟩, ?_⟩
        have h1 : (map_aparc_aseg2label blur labels labelsSag sagittalLutDict
            noccOpt proc aseg).1
            = .ok (⟨a0.h, a0.w, a0.d,
                a0.data.map fun x => ((arr.getD x.toNat 0 : Nat) : Int)⟩,
              ⟨a0.h, a0.w, a0.d,
                (postSagVol sagittalLutDict proc a0).data.map fun x =>
                  ((arrS.getD x.toNat 0 : Nat) : Int)⟩) :=
          congrArg Prod.fst hfull
        rw [h1]
        have hmapd : (a0.data.map fun x => ((arr.getD x.toNat 0 : Nat) : Int))
            = a0.data.map fun x => ((labels.indexOf x : Nat) : Int) :=
          List.map_congr_left fun x hx => by rw [hidx hnd x (hsupa x hx)]
        rw [hmapd]
    · have hmap : map_aparc_aseg2label blur labels labelsSag sagittalLutDict
          noccOpt proc aseg = (.error .unmappedLabel, a0) := by
        unfold map_aparc_aseg2label
        rw [hpre]
        dsimp only
        rw [if_neg hsup]
      constructor
      · constructor
        · intro _
          refine ⟨a0, rfl, ?_⟩
          by_contra hall
          push_neg at hall
          exact hsup (List.all_eq_true.mpr fun x hx =>
            decide_eq_true (hall x hx))
        · intro _
          exact congrArg Prod.fst hmap
      · intro a ha hsupa
        have haa : a0 = a := (Prod.mk.injEq _ _ _ _ ▸ ha).1
        subst haa
        exact absurd (List.all_eq_true.mpr fun x hx =>
          decide_eq_true (hsupa x hx)) hsup

/-- C8 (amended): when `map_aparc_aseg2label` fails with the unmapped-label
assertion, the caller's `aseg` buffer is NOT restored — it holds exactly the
fully preprocessed volume (CC override plus aparc fusion or aseg rewrites
applied in place); `aseg_nocc` is only ever read. -/
theorem C8_state_after_unmapped_failure (blur : Blur)
    (labels labelsSag : List Int) (sagittalLutDict : List (Int × Int))
    (noccOpt : Option Vol) (proc : Proc) (aseg : Vol)
    (h : (map_aparc_aseg2label blur labels labelsSag sagittalLutDict noccOpt
      proc aseg).1 = .error .unmappedLabel) :
    (map_aparc_aseg2label blur labels labelsSag sagittalLutDict noccOpt proc
      aseg).2 = (preprocessSt blur proc noccOpt aseg).1 ∧
    (preprocessSt blur proc noccOpt aseg).2 = none := by
  rcases hpre : preprocessSt blur proc noccOpt aseg with ⟨a0, eopt⟩
  cases eopt with
  | some e =>
    exfalso
    have hmap : (map_aparc_aseg2label blur labels labelsSag sagittalLutDict
        noccOpt proc aseg).1 = .error e := by
      unfold map_aparc_aseg2label
      rw [hpre]
    rw [hmap] at h
    exact absurd (Except.error.inj h) (preprocess_err_ne_unmapped hpre)
  | none =>
    by_cases hsup : (a0.data.all fun x => decide (x ∈ labels)) = true
    · exact absurd h (map_after_superset_ne_unmapped hpre hsup)
    · have hmap : map_aparc_aseg2label blur labels labelsSag sagittalLutDict
          noccOpt proc aseg = (.error .unmappedLabel, a0) := by
        unfold map_aparc_aseg2label
        rw [hpre]
        dsimp only
        rw [if_neg hsup]
      rw [hmap]
      exact ⟨rfl, rfl⟩

/-- C8 counterexample: an `"aseg"`-mode call that fails the superset assertion
leaves the caller's buffer mutated — value 80 has already been rewritten to 77
and the unknown markers 1000/2000 to 3/42 — so the input volume is not
restored. -/
theorem C8_counterexample_mutation :
    (map_aparc_aseg2label blurIdentity [0, 3, 42, 77] [0] [] none .aseg
      ⟨1, 1, 4, [1000, 2000, 80, 200]⟩).1 = .error .unmappedLabel ∧
    (map_aparc_aseg2label blurIdentity [0, 3, 42, 77] [0] [] none .aseg
      ⟨1, 1, 4, [1000, 2000, 80, 200]⟩).2 = ⟨1, 1, 4, [3, 42, 77, 200]⟩ ∧
    (⟨1, 1, 4, [3, 42, 77, 200]⟩ : Vol)
      ≠ ⟨1, 1, 4, [1000, 2000, 80, 200]⟩ := by decide

theorem C8_state_after_unmapped_failure_witness :
    (map_aparc_aseg2label blurIdentity [0, 3, 42, 77] [0] [] none .aseg
      ⟨1, 1, 4, [1000, 2000, 80, 200]⟩).2
      = (preprocessSt blurIdentity .aseg none
          ⟨1, 1, 4, [1000, 2000, 80, 200]⟩).1 ∧
    (preprocessSt blurIdentity .aseg none
      ⟨1, 1, 4, [1000, 2000, 80, 200]⟩).2 = none :=
  C8_state_after_unmapped_failure blurIdentity [0, 3, 42, 77] [0] [] none .aseg
    ⟨1, 1, 4, [1000, 2000, 80, 200]⟩ (by decide)

theorem C1_map_superset_iff_and_positions_witness :
    (∃ msag, (map_aparc_aseg2label blurIdentity [0, 2] [0, 41] [(2, 41)] none
        .other ⟨1, 1, 1, [2]⟩).1 = .ok (⟨1, 1, 1, [1]⟩, msag)) ∧
    (map_aparc_aseg2label blurIdentity [0, 7777] [0, 41] [(2, 41)] none .other
      ⟨1, 1, 1, [2]⟩).1 = .error .unmappedLabel := by
  constructor
  · obtain ⟨msag, hm⟩ :=
      (C1_map_superset_iff_and_positions blurIdentity [0, 2] [0, 41] [(2, 41)]
        none .other ⟨1, 1, 1, [2]⟩).2 ⟨1, 1, 1, [2]⟩ (by decide) (by decide)
        (by decide) (by decide) (by decide) (by decide) (by decide) (by decide)
    exact ⟨msag, hm.trans rfl⟩
  · exact (C1_map_superset_iff_and_positions blurIdentity [0, 7777] [0, 41]
      [(2, 41)] none .other ⟨1, 1, 1, [2]⟩).1.mpr
      ⟨⟨1, 1, 1, [2]⟩, by decide, 2, by decide, by decide⟩

end DataUtils
